import Mathlib

/-!
# Verification of SimpleStateLibrary (src/index.js)

A shallow embedding of the reactive state container in `src/index.js`:
JavaScript values are modelled by the inductive `Value`, a model instance by
its ordered own-property list, the sessionStorage string store by an
association list from keys to stored strings (classified by their JSON parse
result), and the DOM by a list of elements carrying the attributes the
library reads.  Each method of the `Model` class is translated to a Lean
function over these states.
-/

namespace SSL

/-- JavaScript values as the library manipulates them: `undefined`, `null`,
booleans, (integer) numbers, strings, plain objects as ordered key/value
lists, and zero-argument callables modelled by the value they return. -/
inductive Value where
  | undefined : Value
  | vnull : Value
  | vbool : Bool → Value
  | vnum : Int → Value
  | vstr : String → Value
  | vobj : List (String × Value) → Value
  | vfn : Value → Value
deriving Repr

/-- Structural equality test on `Value` (used to model the `===` check of
the proxy's set trap; on the JSON-like data the library stores, strict
equality of primitives coincides with structural equality). -/
def Value.beq : Value → Value → Bool
  | .undefined, .undefined => true
  | .vnull, .vnull => true
  | .vbool a, .vbool b => a == b
  | .vnum a, .vnum b => a == b
  | .vstr a, .vstr b => a == b
  | .vobj fs, .vobj gs => beqFields fs gs
  | .vfn a, .vfn b => Value.beq a b
  | _, _ => false
where
  /-- Pointwise equality of two ordered field lists. -/
  beqFields : List (String × Value) → List (String × Value) → Bool
  | [], [] => true
  | (k, v) :: fs, (l, w) :: gs => k == l && Value.beq v w && beqFields fs gs
  | _, _ => false

theorem Value.beq_iff : ∀ a b : Value, Value.beq a b = true ↔ a = b := by
  have main : ∀ a : Value, (∀ b, Value.beq a b = true ↔ a = b) ∧
      (∀ fs, a = .vobj fs → ∀ gs, Value.beq.beqFields fs gs = true ↔ fs = gs) := by
    intro a
    induction a using Value.rec
      (motive_2 := fun fs => ∀ gs, Value.beq.beqFields fs gs = true ↔ fs = gs)
      (motive_3 := fun p => ∀ q : String × Value,
        (p.1 == q.1 && Value.beq p.2 q.2) = true ↔ p = q) with
    | undefined => exact ⟨fun b => by cases b <;> simp [Value.beq], by intro fs h; cases h⟩
    | vnull => exact ⟨fun b => by cases b <;> simp [Value.beq], by intro fs h; cases h⟩
    | vbool a => exact ⟨fun b => by cases b <;> simp [Value.beq], by intro fs h; cases h⟩
    | vnum a => exact ⟨fun b => by cases b <;> simp [Value.beq], by intro fs h; cases h⟩
    | vstr a => exact ⟨fun b => by cases b <;> simp [Value.beq], by intro fs h; cases h⟩
    | vobj fs ih =>
      refine ⟨fun b => ?_, fun fs' h gs => by cases h; exact ih gs⟩
      cases b <;> simp [Value.beq]
      exact ih _
    | vfn a ih =>
      exact ⟨fun b => by cases b <;> simp [Value.beq, ih.1], by intro fs h; cases h⟩
    | nil => rename_i gs; cases gs <;> simp [Value.beq.beqFields]
    | cons p ps ihp ihps =>
      rename_i gs
      cases gs with
      | nil => simp [Value.beq.beqFields]
      | cons q qs => simp [Value.beq.beqFields, ihp q, ihps qs, Bool.and_eq_true]
    | mk k v ihv =>
      rename_i q
      cases q with
      | mk l w =>
        simp [Bool.and_eq_true, (ihv.1 w)]
  intro a b; exact (main a).1 b

instance : DecidableEq Value := fun a b =>
  decidable_of_iff (Value.beq a b = true) (Value.beq_iff a b)

/-- `typeof v === "function"` — whether a value is callable. -/
def Value.isCallable : Value → Bool
  | .vfn _ => true
  | _ => false

/-- The result of invoking a zero-argument callable (`value[part]()`);
on a non-callable the library never performs this step. -/
def Value.call : Value → Value
  | .vfn r => r
  | v => v

/-- `value == null` — JavaScript loose equality with `null` is true exactly
for `null` and `undefined`. -/
def Value.isNullish : Value → Bool
  | .vnull => true
  | .undefined => true
  | _ => false

/-- Property read `obj[k]` on an ordered own-property list: the value of the
first (unique) entry for `k`, or `undefined` when no such property exists. -/
def getProp (fields : List (String × Value)) (k : String) : Value :=
  match fields.find? (fun p => p.1 = k) with
  | some p => p.2
  | none => .undefined

/-- Property write `obj[k] = v`: an existing key keeps its position in
enumeration order and only its value changes; a new key is appended. -/
def setProp : List (String × Value) → String → Value → List (String × Value)
  | [], k, v => [(k, v)]
  | (k', v') :: rest, k, v =>
      if k' = k then (k, v) :: rest else (k', v') :: setProp rest k v

/-- `obj.hasOwnProperty(k)`. -/
def hasOwn (fields : List (String × Value)) (k : String) : Bool :=
  (fields.find? (fun p => p.1 = k)).isSome

/-- JavaScript `s.startsWith(pre)`: `pre` is a character-wise prefix of
`s`. -/
def jsStartsWith (s pre : String) : Bool :=
  pre.data.isPrefixOf s.data

/-- JavaScript `s.split(sep)` on the character lists, for the
single-character separator the library uses (`"."`): splitting the empty
string yields `[""]`, and consecutive separators yield empty segments. -/
def jsSplitList (sep : Char) : List Char → List (List Char)
  | [] => [[]]
  | c :: rest =>
      match jsSplitList sep rest with
      | [] => [[]]
      | h :: t => if c = sep then [] :: h :: t else (c :: h) :: t

/-- JavaScript `s.split(sep)` for a single-character separator. -/
def jsSplit (sep : Char) (s : String) : List String :=
  (jsSplitList sep s.data).map String.mk

/-- Generic property read on any value, as used by the binding resolver's
`value[part]` step: objects look up the key; primitives and callables have
no own properties in this model, so the read yields `undefined`. -/
def Value.getMember : Value → String → Value
  | .vobj fs, k => getProp fs k
  | _, _ => .undefined

/-- JavaScript truthiness, `!!value`. -/
def Value.toBool : Value → Bool
  | .undefined => false
  | .vnull => false
  | .vbool b => b
  | .vnum n => n ≠ 0
  | .vstr s => s ≠ ""
  | .vobj _ => true
  | .vfn _ => true

/-- JavaScript string coercion `String(value)`, as performed when a value is
assigned to a DOM `value`/`textContent` property. -/
def Value.toDisplayString : Value → String
  | .undefined => "undefined"
  | .vnull => "null"
  | .vbool b => if b then "true" else "false"
  | .vnum n => toString n
  | .vstr s => s
  | .vobj _ => "[object Object]"
  | .vfn _ => "function"

/-!
## JSON serialization

`sessionStorage` stores strings.  `JSON.stringify` applied to the data
object built by `__persist`/`post` drops members whose value is `undefined`
or a function (recursively inside nested objects) and keeps everything else
verbatim; on the resulting JSON-compatible data it is injective given the
enumeration order our field lists carry.  A stored string is therefore
modelled by its parse classification: `good snap` is the unique JSON text
serializing the (normalized) snapshot `snap`, and `bad raw` is a string on
which `JSON.parse` throws.
-/

mutual
/-- `JSON.stringify` member normalization: `undefined` and functions are
omitted from objects; other values are kept, with nested objects
normalized recursively. -/
def jsonNormalize : Value → Option Value
  | .undefined => none
  | .vfn _ => none
  | .vobj fs => some (.vobj (normFields fs))
  | v => some v

/-- Normalize an ordered field list, dropping members `JSON.stringify`
omits. -/
def normFields : List (String × Value) → List (String × Value)
  | [] => []
  | (k, v) :: rest =>
      match jsonNormalize v with
      | some v' => (k, v') :: normFields rest
      | none => normFields rest
end

/-- A value that survives `JSON.stringify` unchanged: no `undefined` and no
callable anywhere (the spec's "JSON-serializable" field values). -/
def Value.isJsonValue : Value → Bool
  | .undefined => false
  | .vfn _ => false
  | .vobj fs => jsonFields fs
  | _ => true
where
  /-- All members of a field list are JSON-serializable. -/
  jsonFields : List (String × Value) → Bool
  | [] => true
  | (_, v) :: rest => v.isJsonValue && jsonFields rest

/-- A string held in the store, classified by what `JSON.parse` does with
it: `good snap` parses to the object `snap`; `bad raw` throws. -/
inductive StoredString where
  | good : List (String × Value) → StoredString
  | bad : String → StoredString
deriving DecidableEq, Repr

/-- The abstract `sessionStorage`: an association list from string keys to
stored strings (`getItem` on an absent key returns `null`). -/
abbrev Store := List (String × StoredString)

/-- `sessionStorage.getItem(key)`. -/
def Store.getItem (s : Store) (key : String) : Option StoredString :=
  match (List.find? (fun p => p.1 = key) s) with
  | some p => some p.2
  | none => none

/-- `sessionStorage.setItem(key, value)`. -/
def Store.setItem (s : Store) (key : String) (v : StoredString) : Store :=
  setItemGo s
where
  /-- Replace the entry for `key` in place, or append a new one. -/
  setItemGo : List (String × StoredString) → List (String × StoredString)
  | [] => [(key, v)]
  | (k', v') :: rest => if k' = key then (key, v) :: rest else (k', v') :: setItemGo rest

/-!
## The model instance and the DOM
-/

/-- A live model instance: the registered `instanceName` (held in the
non-enumerable `__instanceName` slot) and the ordered list of the object's
own enumerable properties.  Zero-argument methods reachable from bindings
are represented as `Value.vfn` members. -/
structure Model where
  instanceName : String
  fields : List (String × Value)
deriving DecidableEq, Repr

/-- A presentation element with the parts the library touches: `tagName`,
the `type` property (`"checkbox"` for checkbox inputs), the `data-bind` and
`data-model` attributes (`none` when absent), and the sinks the render pass
writes (`value`, `checked`, `textContent`). -/
structure Element where
  tagName : String
  elemType : String
  dataBind : Option String
  dataModel : Option String
  value : String
  checked : Bool
  textContent : String
deriving DecidableEq, Repr

/-- The abstract document: elements in document order, as
`document.querySelectorAll` enumerates them. -/
abbrev DOM := List Element

/-- Observable propagation steps of the change pipeline: a call to
`__persist` (storage save) and a call to `__updateDOM` (render pass). -/
inductive Action where
  | persist : Action
  | render : Action
deriving DecidableEq, Repr

/-- The storage key `` `model:${instanceName}` `` used by `__persist` and
`__restore`. -/
def storageKey (instanceName : String) : String := "model:" ++ instanceName

/-!
## `__getPropertyValue` — the binding resolver
-/

/-- The loop of `__getPropertyValue`: walk the remaining path parts from the
current value.  At each part: a null/undefined current value short-circuits
to `""`; a callable member is invoked (`value[part]()`); otherwise the field
is read.  After the last part the result is `value ?? ""`. -/
def resolveSteps : Value → List String → Value
  | v, [] => if v.isNullish then .vstr "" else v
  | v, part :: rest =>
      if v.isNullish then .vstr ""
      else if (v.getMember part).isCallable then
        resolveSteps (v.getMember part).call rest
      else
        resolveSteps (v.getMember part) rest

/-- `__getPropertyValue(propertyPath)`: split the path on `"."` and walk it
starting from the model object itself. -/
def Model.getPropertyValue (m : Model) (propertyPath : String) : Value :=
  resolveSteps (.vobj m.fields) (jsSplit '.' propertyPath)

/-!
## `__updateElement` and `__updateDOM` — render sync
-/

/-- `__updateElement(element, binding)`: resolve the value, then apply it by
element kind — `checked` (coerced by `!!`) for checkboxes, the `value`
property for `INPUT`/`SELECT`, `textContent` for `TEXTAREA` and for every
other element. -/
def Model.updateElement (m : Model) (e : Element) (binding : String) : Element :=
  let value := m.getPropertyValue binding
  if e.elemType = "checkbox" then { e with checked := value.toBool }
  else if e.tagName = "INPUT" ∨ e.tagName = "SELECT" then
    { e with value := value.toDisplayString }
  else if e.tagName = "TEXTAREA" then { e with textContent := value.toDisplayString }
  else { e with textContent := value.toDisplayString }

/-- Whether an element matches the `__updateDOM` selector
`` [data-bind^="name."], [data-model^="name."] ``. -/
def matchesModelSelector (name : String) (e : Element) : Bool :=
  (match e.dataBind with
   | some b => jsStartsWith b (name ++ ".")
   | none => false) ||
  (match e.dataModel with
   | some b => jsStartsWith b (name ++ ".")
   | none => false)

/-- `element.getAttribute("data-bind") || element.getAttribute("data-model")
|| ""` — the first truthy attribute (absent attributes read as `null`, and
the empty string is falsy). -/
def Element.bindingAttr (e : Element) : String :=
  match e.dataBind with
  | some b => if b = "" then (match e.dataModel with | some c => c | none => "") else b
  | none => match e.dataModel with | some c => c | none => ""

/-- `__updateDOM()`: re-scan the whole document; every element matching the
selector is updated with the binding's property part (the segments after the
instance name, re-joined with `"."`); all other elements are untouched. -/
def Model.updateDOM (m : Model) (dom : DOM) : DOM :=
  dom.map fun e =>
    if matchesModelSelector m.instanceName e then
      let binding := e.bindingAttr
      let propertyBinding := String.intercalate "." ((jsSplit '.' binding).drop 1)
      m.updateElement e propertyBinding
    else e

/-!
## `__persist` and `__restore` — the persistence adapter
-/

/-- The `data` object built by `__persist`'s `for…in` loop: own enumerable
members that are not `__`-prefixed, not functions, and not `endpoint`. -/
def persistData (fields : List (String × Value)) : List (String × Value) :=
  fields.filter fun p => !jsStartsWith p.1 "__" && !p.2.isCallable && p.1 ≠ "endpoint"

/-- `__persist()`: write `JSON.stringify(data)` under the storage key. -/
def Model.persist (m : Model) (store : Store) : Store :=
  store.setItem (storageKey m.instanceName) (.good (normFields (persistData m.fields)))

/-- `for (const key in data) this[key] = data[key]` — plain assignments on
the not-yet-proxied object, applied in the snapshot's enumeration order. -/
def applyAll (fields : List (String × Value)) : List (String × Value) → List (String × Value)
  | [] => fields
  | (k, v) :: rest => applyAll (setProp fields k v) rest

/-- `__restore()`: read the storage key and guard with `if (stored)` — a
truthiness test, so both an absent entry (`null`) and a stored empty string
are skipped silently.  A non-empty unparseable entry makes `JSON.parse`
throw, which is caught and reported via `console.error` (the Boolean
records that report); since the empty string is the only falsy string and
`JSON.parse("")` throws, a skipped-but-present entry is exactly `bad ""`,
while a `good` snapshot's JSON-object text is never empty and always passes
the guard.  A parseable entry has each stored field assigned onto the raw
object (the constructor calls `__restore` before the proxy exists, so these
writes never reach the set trap). -/
def Model.restore (m : Model) (store : Store) : Model × Bool :=
  match store.getItem (storageKey m.instanceName) with
  | none => (m, false)
  | some (.bad raw) => if raw = "" then (m, false) else (m, true)
  | some (.good data) => ({ m with fields := applyAll m.fields data }, false)

/-!
## The proxy set trap and construction
-/

/-- One intercepted property write `proxy[property] = value` (the `set`
trap installed by `__createProxy`): `__`-prefixed names, function values and
`endpoint` are written directly with no propagation; a value strictly equal
to the current one is skipped; otherwise the write is applied, then
`__persist` runs, then `__updateDOM` runs, in that order. -/
def proxySet (m : Model) (store : Store) (dom : DOM) (property : String) (value : Value) :
    Model × Store × DOM × List Action :=
  if jsStartsWith property "__" || value.isCallable || property = "endpoint" then
    ({ m with fields := setProp m.fields property value }, store, dom, [])
  else if getProp m.fields property = value then
    (m, store, dom, [])
  else
    let m' : Model := { m with fields := setProp m.fields property value }
    let store' := m'.persist store
    let dom' := m'.updateDOM dom
    (m', store', dom', [.persist, .render])

/-- `modelRegistry.set(instanceName, proxy)`: the global registry keyed by
instance name (an existing key keeps its position; the registered value is
the live proxy, which this embedding carries as the model state itself, so
only the key set is recorded). -/
def registerModel (registry : List String) (name : String) : List String :=
  if registry.contains name then registry else registry ++ [name]

/-- The outcome of `new SubModel(instanceName)`: the final model state, the
store, the document, the registry, whether `__restore` reported a parse
failure, and the propagation actions observed before construction
returned. -/
structure ConstructResult where
  model : Model
  store : Store
  dom : DOM
  registry : List String
  logged : Bool
  trace : List Action
deriving Repr

/-- The subclass's public class fields: `Model`'s constructor returns the
proxy, so in `class Sub extends Model`, `super()` binds `this` to that
proxy and the field initializers (`name = ""; …`) are then installed on it
in declaration order via `CreateDataPropertyOrThrow`, i.e. the proxy's
`[[DefineOwnProperty]]` internal method.  The handler in `__createProxy`
installs only `set` and `get` traps, so the definitions forward untrapped
to the target: class-field initialization bypasses the interceptor, never
persists and never renders — and it overwrites any restored value of a
declared field with the declared default. -/
def applyInits (m : Model) (declared : List (String × Value)) : Model :=
  { m with fields := applyAll m.fields declared }

/-- `new SubModel(instanceName)` where `SubModel extends Model` declares the
instance fields `declared`.  `Model`'s constructor body runs first, on an
object that has none of the declared fields yet: it stores the metadata,
calls `__restore()` (raw writes), creates the proxy, registers it, and
calls `proxy.__updateDOM()`.  The constructor then returns the proxy and
the subclass's field definitions are installed through it, untrapped.
Construction therefore never writes the store, and its observable
propagation trace is exactly the one render of `proxy.__updateDOM()`. -/
def construct (declared : List (String × Value)) (instanceName : String)
    (store : Store) (dom : DOM) (registry : List String) : ConstructResult :=
  let m0 : Model := ⟨instanceName, []⟩
  let restored := m0.restore store
  let m1 := restored.1
  let registry' := registerModel registry instanceName
  let dom1 := m1.updateDOM dom
  ⟨applyInits m1 declared, store, dom1, registry', restored.2, [.render]⟩

/-!
## `get()` and `post()` — remote sync
-/

/-- The population loop shared by `get()` and `post()`'s response handling:
`for (const key in data) if (!key.startsWith("__") && this.hasOwnProperty(key))
this[key] = data[key]`.  These assignments run on `this`, which inside a
method invoked through the proxy is the proxy itself, so each accepted key
goes through the set trap. -/
def populateResponse (m : Model) (store : Store) (dom : DOM) :
    List (String × Value) → Model × Store × DOM × List Action
  | [] => (m, store, dom, [])
  | (k, v) :: rest =>
      if !jsStartsWith k "__" && hasOwn m.fields k then
        let (m', store', dom', a) := proxySet m store dom k v
        let (m'', store'', dom'', a') := populateResponse m' store' dom' rest
        (m'', store'', dom'', a ++ a')
      else populateResponse m store dom rest

/-- The `payload` object built by `post()`'s `for…in` loop before
`JSON.stringify(payload)` becomes the request body: own enumerable members
that are not `__`-prefixed, not functions, and not `endpoint`. -/
def Model.postPayload (m : Model) : List (String × Value) :=
  m.fields.filter fun p => !jsStartsWith p.1 "__" && !p.2.isCallable && p.1 ≠ "endpoint"

/-- The constructor as callers use it per `index.d.ts` and the README:
`new SubModel(instanceName, sessionPersist)`.  The constructor declared in
`src/index.js` is `constructor(instanceName)`, so the second argument is
silently ignored by JavaScript's calling convention and construction is
identical for every flag value. -/
def constructWithFlag (declared : List (String × Value)) (instanceName : String)
    (_sessionPersist : Bool) (store : Store) (dom : DOM) (registry : List String) :
    ConstructResult :=
  construct declared instanceName store dom registry

/-!
## Helper lemmas about property lists and the store
-/

theorem getProp_setProp_self (fs : List (String × Value)) (k : String) (v : Value) :
    getProp (setProp fs k v) k = v := by
  induction fs with
  | nil => simp [setProp, getProp, List.find?]
  | cons p rest ih =>
    obtain ⟨k', v'⟩ := p
    by_cases h : k' = k
    · simp [setProp, h, getProp, List.find?]
    · simp only [setProp, if_neg h]
      simpa [getProp, List.find?, h] using ih

theorem getProp_setProp_ne (fs : List (String × Value)) (k k' : String) (v : Value)
    (h : k' ≠ k) : getProp (setProp fs k v) k' = getProp fs k' := by
  induction fs with
  | nil => simp [setProp, getProp, List.find?, Ne.symm h]
  | cons p rest ih =>
    obtain ⟨j, w⟩ := p
    by_cases hj : j = k
    · subst hj
      simp [setProp, getProp, List.find?, Ne.symm h]
    · simp only [setProp, if_neg hj]
      by_cases hj' : j = k'
      · simp [getProp, List.find?, hj']
      · simpa [getProp, List.find?, hj'] using ih

theorem hasOwn_setProp_ne (fs : List (String × Value)) (k k' : String) (v : Value)
    (h : k' ≠ k) : hasOwn (setProp fs k v) k' = hasOwn fs k' := by
  induction fs with
  | nil => simp [setProp, hasOwn, List.find?, Ne.symm h]
  | cons p rest ih =>
    obtain ⟨j, w⟩ := p
    by_cases hj : j = k
    · subst hj
      simp [setProp, hasOwn, List.find?, Ne.symm h]
    · simp only [setProp, if_neg hj]
      by_cases hj' : j = k'
      · simp [hasOwn, List.find?, hj']
      · simpa [hasOwn, List.find?, hj'] using ih

theorem getProp_cons (j : String) (w : Value) (rest : List (String × Value)) (k : String) :
    getProp ((j, w) :: rest) k = if j = k then w else getProp rest k := by
  by_cases hj : j = k <;> simp [getProp, List.find?, hj]

theorem hasOwn_cons (j : String) (w : Value) (rest : List (String × Value)) (k : String) :
    hasOwn ((j, w) :: rest) k = (decide (j = k) || hasOwn rest k) := by
  by_cases hj : j = k <;> simp [hasOwn, List.find?, hj]

theorem mem_setProp_self (fs : List (String × Value)) (k : String) (v : Value) :
    (k, v) ∈ setProp fs k v := by
  induction fs with
  | nil => simp [setProp]
  | cons p rest ih =>
    obtain ⟨j, w⟩ := p
    by_cases hj : j = k
    · simp [setProp, hj]
    · simp only [setProp, if_neg hj]
      exact List.mem_cons_of_mem _ ih

theorem setProp_eq_self (fs : List (String × Value)) (k : String) (v : Value)
    (hown : hasOwn fs k = true) (hval : getProp fs k = v) : setProp fs k v = fs := by
  induction fs with
  | nil => simp [hasOwn, List.find?] at hown
  | cons p rest ih =>
    obtain ⟨j, w⟩ := p
    by_cases hj : j = k
    · subst hj
      simp [getProp, List.find?] at hval
      simp [setProp, hval]
    · simp only [setProp, if_neg hj]
      rw [hasOwn_cons] at hown
      simp only [hj, decide_eq_true_eq, Bool.false_or, decide_eq_false_iff_not,
        Bool.or_eq_true, false_or] at hown
      rw [getProp_cons, if_neg hj] at hval
      rw [ih hown hval]

theorem mem_of_getProp (fs : List (String × Value)) (k : String) (v : Value)
    (h : getProp fs k = v) (hv : v ≠ .undefined) : (k, v) ∈ fs := by
  induction fs with
  | nil => simp [getProp, List.find?] at h; exact absurd h.symm hv
  | cons p rest ih =>
    obtain ⟨j, w⟩ := p
    by_cases hj : j = k
    · subst hj
      simp [getProp, List.find?] at h
      simp [h]
    · simp [getProp, List.find?, hj] at h
      exact List.mem_cons_of_mem _ (ih h)

theorem getItem_setItem_self (s : Store) (key : String) (v : StoredString) :
    (s.setItem key v).getItem key = some v := by
  induction s with
  | nil => simp [Store.setItem, Store.setItem.setItemGo, Store.getItem, List.find?]
  | cons p rest ih =>
    obtain ⟨j, w⟩ := p
    by_cases hj : j = key
    · simp [Store.setItem, Store.setItem.setItemGo, hj, Store.getItem, List.find?]
    · simp only [Store.setItem, Store.setItem.setItemGo, if_neg hj]
      simpa [Store.getItem, Store.setItem, List.find?, hj] using ih

theorem getItem_setItem_ne (s : Store) (key key' : String) (v : StoredString)
    (h : key' ≠ key) : (s.setItem key v).getItem key' = s.getItem key' := by
  induction s with
  | nil =>
    simp [Store.setItem, Store.setItem.setItemGo, Store.getItem, List.find?,
      Ne.symm h]
  | cons p rest ih =>
    obtain ⟨j, w⟩ := p
    by_cases hj : j = key
    · subst hj
      simp [Store.setItem, Store.setItem.setItemGo, Store.getItem, List.find?,
        Ne.symm h]
    · simp only [Store.setItem, Store.setItem.setItemGo, if_neg hj]
      by_cases hj' : j = key'
      · simp [Store.getItem, List.find?, hj']
      · simpa [Store.getItem, Store.setItem, List.find?, hj'] using ih

theorem storageKey_inj (a b : String) (h : storageKey a = storageKey b) : a = b := by
  have hd : ("model:" ++ a).data = ("model:" ++ b).data := by
    rw [show ("model:" ++ a) = storageKey a from rfl, h]; rfl
  simp only [String.data_append] at hd
  exact String.ext (List.append_cancel_left hd)

/-!
## Lemmas about `JSON.stringify` normalization
-/

theorem jsonNormalize_of_isJsonValue :
    ∀ v : Value, v.isJsonValue = true → jsonNormalize v = some v := by
  have main : ∀ v : Value, (v.isJsonValue = true → jsonNormalize v = some v) ∧
      (∀ fs, v = .vobj fs →
        Value.isJsonValue.jsonFields fs = true → normFields fs = fs) := by
    intro v
    induction v using Value.rec
      (motive_2 := fun fs => Value.isJsonValue.jsonFields fs = true → normFields fs = fs)
      (motive_3 := fun p => p.2.isJsonValue = true → jsonNormalize p.2 = some p.2) with
    | undefined => exact ⟨by simp [Value.isJsonValue], by intro fs h; cases h⟩
    | vnull => exact ⟨by simp [jsonNormalize], by intro fs h; cases h⟩
    | vbool a => exact ⟨by simp [jsonNormalize], by intro fs h; cases h⟩
    | vnum a => exact ⟨by simp [jsonNormalize], by intro fs h; cases h⟩
    | vstr a => exact ⟨by simp [jsonNormalize], by intro fs h; cases h⟩
    | vobj fs ih =>
      refine ⟨fun h => ?_, fun fs' h => by cases h; exact ih⟩
      have := ih (by simpa [Value.isJsonValue] using h)
      simp [jsonNormalize, this]
    | vfn a ih => exact ⟨by simp [Value.isJsonValue], by intro fs h; cases h⟩
    | nil => rfl
    | cons p ps ihp ihps =>
      rename_i h
      obtain ⟨k, w⟩ := p
      simp only [Value.isJsonValue.jsonFields, Bool.and_eq_true] at h
      have h1 := ihp h.1
      have h2 := ihps h.2
      simp [normFields, h1, h2]
    | mk k w ihw => rename_i h; exact ihw.1 h
  exact fun v => (main v).1

theorem of_mem_normFields (fs : List (String × Value)) (k : String) (v : Value)
    (h : (k, v) ∈ normFields fs) : ∃ v₀, (k, v₀) ∈ fs ∧ jsonNormalize v₀ = some v := by
  induction fs with
  | nil => simp [normFields] at h
  | cons p rest ih =>
    obtain ⟨j, w⟩ := p
    simp only [normFields] at h
    cases hn : jsonNormalize w with
    | none =>
      rw [hn] at h
      obtain ⟨v₀, hm, he⟩ := ih h
      exact ⟨v₀, List.mem_cons_of_mem _ hm, he⟩
    | some w' =>
      rw [hn] at h
      rcases List.mem_cons.mp h with h' | h'
      · rw [Prod.mk.injEq] at h'
        obtain ⟨hk, hv⟩ := h'
        subst hk
        exact ⟨w, List.mem_cons_self _ _, by rw [hn, hv]⟩
      · obtain ⟨v₀, hm, he⟩ := ih h'
        exact ⟨v₀, List.mem_cons_of_mem _ hm, he⟩

theorem mem_normFields_of_mem (fs : List (String × Value)) (k : String) (v v' : Value)
    (hm : (k, v) ∈ fs) (hn : jsonNormalize v = some v') : (k, v') ∈ normFields fs := by
  induction fs with
  | nil => simp at hm
  | cons p rest ih =>
    obtain ⟨j, w⟩ := p
    rcases List.mem_cons.mp hm with h' | h'
    · rw [Prod.mk.injEq] at h'
      obtain ⟨hk, hv⟩ := h'
      subst hk; subst hv
      simp [normFields, hn]
    · have := ih h'
      simp only [normFields]
      cases hw : jsonNormalize w with
      | none => exact this
      | some w' => exact List.mem_cons_of_mem _ this

theorem jsonNormalize_not_callable (v₀ v : Value) (h : jsonNormalize v₀ = some v) :
    v.isCallable = false := by
  cases v₀ <;> simp [jsonNormalize] at h <;> simp [← h, Value.isCallable]

/-!
## Lemmas about the write pipeline
-/

theorem proxySet_hasOwn_ne (m : Model) (s : Store) (d : DOM) (j : String) (v : Value)
    (k : String) (h : k ≠ j) :
    hasOwn (proxySet m s d j v).1.fields k = hasOwn m.fields k := by
  by_cases h1 : (jsStartsWith j "__" || v.isCallable || j = "endpoint") = true
  · simp [proxySet, h1, hasOwn_setProp_ne _ _ _ _ h]
  · by_cases h2 : getProp m.fields j = v
    · simp [proxySet, h1, h2]
    · simp [proxySet, h1, h2, hasOwn_setProp_ne _ _ _ _ h]

theorem proxySet_store_getItem_other (m : Model) (s : Store) (d : DOM) (k : String)
    (v : Value) (key : String) (h : key ≠ storageKey m.instanceName) :
    (proxySet m s d k v).2.1.getItem key = s.getItem key := by
  by_cases h1 : (jsStartsWith k "__" || v.isCallable || k = "endpoint") = true
  · simp [proxySet, h1]
  · by_cases h2 : getProp m.fields k = v
    · simp [proxySet, h1, h2]
    · simp only [proxySet, if_neg h1, if_neg h2]
      exact getItem_setItem_ne _ _ _ _ h

theorem populateResponse_hasOwn_false (data : List (String × Value)) :
    ∀ (m : Model) (s : Store) (d : DOM) (k : String),
    hasOwn m.fields k = false →
    hasOwn (populateResponse m s d data).1.fields k = false := by
  induction data with
  | nil => intro m s d k h; exact h
  | cons p rest ih =>
    intro m s d k h
    obtain ⟨j, v⟩ := p
    by_cases hc : (!jsStartsWith j "__" && hasOwn m.fields j) = true
    · have hj : k ≠ j := by
        intro he
        rw [Bool.and_eq_true] at hc
        rw [he] at h
        rw [h] at hc
        exact Bool.false_ne_true hc.2
      simp only [populateResponse, hc, if_pos]
      exact ih _ _ _ _ (by rw [proxySet_hasOwn_ne _ _ _ _ _ _ hj]; exact h)
    · simp only [populateResponse, hc]
      simp only [Bool.not_eq_true] at hc
      rw [if_neg (by simp [hc])]
      exact ih _ _ _ _ h

theorem applyAll_getProp_not_mem (snap : List (String × Value)) :
    ∀ (fs : List (String × Value)) (k : String), k ∉ snap.map Prod.fst →
    getProp (applyAll fs snap) k = getProp fs k := by
  induction snap with
  | nil => intro fs k _; rfl
  | cons p rest ih =>
    intro fs k hk
    obtain ⟨j, v⟩ := p
    simp only [List.map_cons, List.mem_cons] at hk
    push_neg at hk
    simp only [applyAll]
    rw [ih _ _ hk.2]
    exact getProp_setProp_ne _ _ _ _ hk.1

theorem applyAll_getProp_mem (snap : List (String × Value)) :
    ∀ (fs : List (String × Value)) (k : String) (v : Value),
    (snap.map Prod.fst).Nodup → (k, v) ∈ snap →
    getProp (applyAll fs snap) k = v := by
  induction snap with
  | nil => intro fs k v _ hm; simp at hm
  | cons p rest ih =>
    intro fs k v hnd hm
    obtain ⟨j, w⟩ := p
    simp only [List.map_cons, List.nodup_cons] at hnd
    rcases List.mem_cons.mp hm with h' | h'
    · rw [Prod.mk.injEq] at h'
      obtain ⟨hk, hv⟩ := h'
      subst hk; subst hv
      simp only [applyAll]
      rw [applyAll_getProp_not_mem _ _ _ hnd.1]
      exact getProp_setProp_self _ _ _
    · simp only [applyAll]
      exact ih _ _ _ hnd.2 h'

/-!
## Claim theorems
-/

/-- C3: for every model `m`, public field `f` (not `__`-prefixed, not
`endpoint`) and non-callable JSON-serializable value `v` different from the
current value of `m.f`, the write `m.f = v` applies the value, then invokes
the persistence save, then invokes the DOM render update, in that order;
afterwards reading `m.f` returns `v` and the persisted snapshot under
`"model:" + instanceName` contains `f` mapped to `v`. -/
theorem C3_public_write_pipeline (m : Model) (store : Store) (dom : DOM)
    (f : String) (v : Value)
    (h1 : jsStartsWith f "__" = false) (h2 : f ≠ "endpoint") (h3 : v.isCallable = false)
    (h4 : v.isJsonValue = true) (h5 : getProp m.fields f ≠ v) :
    proxySet m store dom f v =
      ({ m with fields := setProp m.fields f v },
        Model.persist { m with fields := setProp m.fields f v } store,
        Model.updateDOM { m with fields := setProp m.fields f v } dom,
        [Action.persist, Action.render]) ∧
    getProp (setProp m.fields f v) f = v ∧
    (Model.persist { m with fields := setProp m.fields f v } store).getItem
        (storageKey m.instanceName) =
      some (.good (normFields (persistData (setProp m.fields f v)))) ∧
    (f, v) ∈ normFields (persistData (setProp m.fields f v)) := by
  have hc : (jsStartsWith f "__" || v.isCallable || f = "endpoint") = false := by
    simp [h1, h2, h3]
  refine ⟨by simp [proxySet, hc, h5], getProp_setProp_self _ _ _, ?_, ?_⟩
  · exact getItem_setItem_self _ _ _
  · refine mem_normFields_of_mem _ _ _ _ ?_ (jsonNormalize_of_isJsonValue v h4)
    refine List.mem_filter.mpr ⟨mem_setProp_self _ _ _, ?_⟩
    simp [h1, h2, h3]

/-- C3 witness: the end-to-end example of spec §8 — on a `user` model with
empty `name` and `email`, writing `name = "John Doe"` persists then renders,
the field reads back, and the snapshot contains the new value. -/
theorem C3_public_write_pipeline_witness :
    (jsStartsWith "name" "__" = false ∧ "name" ≠ "endpoint" ∧
      (Value.vstr "John Doe").isCallable = false ∧
      (Value.vstr "John Doe").isJsonValue = true ∧
      getProp [("name", Value.vstr ""), ("email", Value.vstr "")] "name" ≠
        Value.vstr "John Doe") ∧
    (proxySet ⟨"user", [("name", Value.vstr ""), ("email", Value.vstr "")]⟩ [] []
        "name" (Value.vstr "John Doe") =
      (⟨"user", setProp [("name", Value.vstr ""), ("email", Value.vstr "")]
          "name" (Value.vstr "John Doe")⟩,
        Model.persist ⟨"user", setProp [("name", Value.vstr ""), ("email", Value.vstr "")]
          "name" (Value.vstr "John Doe")⟩ [],
        Model.updateDOM ⟨"user", setProp [("name", Value.vstr ""), ("email", Value.vstr "")]
          "name" (Value.vstr "John Doe")⟩ [],
        [Action.persist, Action.render]) ∧
      getProp (setProp [("name", Value.vstr ""), ("email", Value.vstr "")]
          "name" (Value.vstr "John Doe")) "name" = Value.vstr "John Doe" ∧
      (Model.persist ⟨"user", setProp [("name", Value.vstr ""), ("email", Value.vstr "")]
          "name" (Value.vstr "John Doe")⟩ []).getItem (storageKey "user") =
        some (.good (normFields (persistData
          (setProp [("name", Value.vstr ""), ("email", Value.vstr "")]
            "name" (Value.vstr "John Doe"))))) ∧
      ("name", Value.vstr "John Doe") ∈ normFields (persistData
        (setProp [("name", Value.vstr ""), ("email", Value.vstr "")]
          "name" (Value.vstr "John Doe")))) :=
  ⟨⟨by decide, by decide, by decide, by decide, by decide⟩,
    C3_public_write_pipeline ⟨"user", [("name", Value.vstr ""), ("email", Value.vstr "")]⟩
      [] [] "name" (Value.vstr "John Doe")
      (by decide) (by decide) (by decide) (by decide) (by decide)⟩

/-- C4: writing to a public field a value strictly equal to its current
value leaves the model, the store (hence the snapshot's serialized content)
and the DOM unchanged and triggers neither persist nor render; moreover
applying the write would have been the identity on the field list, so the
skip coincides with "apply the write but skip propagation". -/
theorem C4_idempotent_resetting (m : Model) (store : Store) (dom : DOM)
    (f : String) (v : Value)
    (h1 : jsStartsWith f "__" = false) (h2 : f ≠ "endpoint") (h3 : v.isCallable = false)
    (h4 : hasOwn m.fields f = true) (h5 : getProp m.fields f = v) :
    proxySet m store dom f v = (m, store, dom, []) ∧ setProp m.fields f v = m.fields := by
  have hc : (jsStartsWith f "__" || v.isCallable || f = "endpoint") = false := by
    simp [h1, h2, h3]
  exact ⟨by simp [proxySet, hc, h5], setProp_eq_self _ _ _ h4 h5⟩

/-- C4 witness: re-setting `name` to its current value `"initial"` performs
no propagation and would not have changed the field list. -/
theorem C4_idempotent_resetting_witness :
    (jsStartsWith "name" "__" = false ∧ "name" ≠ "endpoint" ∧
      (Value.vstr "initial").isCallable = false ∧
      hasOwn [("name", Value.vstr "initial")] "name" = true ∧
      getProp [("name", Value.vstr "initial")] "name" = Value.vstr "initial") ∧
    (proxySet ⟨"same-value-test", [("name", Value.vstr "initial")]⟩
        [(storageKey "same-value-test", .good [("name", Value.vstr "initial")])] []
        "name" (Value.vstr "initial") =
      (⟨"same-value-test", [("name", Value.vstr "initial")]⟩,
        [(storageKey "same-value-test", .good [("name", Value.vstr "initial")])], [], []) ∧
      setProp [("name", Value.vstr "initial")] "name" (Value.vstr "initial") =
        [("name", Value.vstr "initial")]) :=
  ⟨⟨by decide, by decide, by decide, by decide, by decide⟩,
    C4_idempotent_resetting ⟨"same-value-test", [("name", Value.vstr "initial")]⟩
      [(storageKey "same-value-test", .good [("name", Value.vstr "initial")])] []
      "name" (Value.vstr "initial")
      (by decide) (by decide) (by decide) (by decide) (by decide)⟩

/-- C5: a write whose property is `__`-prefixed, or is `endpoint`, or whose
value is callable, is applied directly to the target with no propagation —
the store and the DOM are left exactly as they were. -/
theorem C5_internal_write_no_propagation (m : Model) (store : Store) (dom : DOM)
    (k : String) (v : Value)
    (h : jsStartsWith k "__" = true ∨ v.isCallable = true ∨ k = "endpoint") :
    proxySet m store dom k v =
      ({ m with fields := setProp m.fields k v }, store, dom, []) := by
  have hc : (jsStartsWith k "__" || v.isCallable || k = "endpoint") = true := by
    rcases h with h | h | h <;> simp [h]
  simp [proxySet, hc]

/-- C5 witness: writing the private member `__secret` applies the value but
leaves a non-empty store and a bound element untouched. -/
theorem C5_internal_write_no_propagation_witness :
    (jsStartsWith "__secret" "__" = true ∨ (Value.vstr "hidden").isCallable = true ∨
      "__secret" = "endpoint") ∧
    proxySet ⟨"private-test", [("name", Value.vstr "Charlie")]⟩
        [(storageKey "private-test", .good [("name", Value.vstr "Charlie")])]
        [⟨"SPAN", "", some "private-test.name", none, "", false, "Charlie"⟩]
        "__secret" (Value.vstr "hidden") =
      (⟨"private-test", setProp [("name", Value.vstr "Charlie")] "__secret"
          (Value.vstr "hidden")⟩,
        [(storageKey "private-test", .good [("name", Value.vstr "Charlie")])],
        [⟨"SPAN", "", some "private-test.name", none, "", false, "Charlie"⟩], []) :=
  ⟨Or.inl (by decide),
    C5_internal_write_no_propagation ⟨"private-test", [("name", Value.vstr "Charlie")]⟩
      [(storageKey "private-test", .good [("name", Value.vstr "Charlie")])]
      [⟨"SPAN", "", some "private-test.name", none, "", false, "Charlie"⟩]
      "__secret" (Value.vstr "hidden") (Or.inl (by decide))⟩

/-- C6: in every reachable state, the snapshot written by `__persist` and
the JSON payload sent by `post()` contain no `__`-prefixed key, no
`endpoint` key and no callable-valued member. -/
theorem C6_snapshot_payload_exclusions (m : Model) (k : String) (v : Value)
    (h : (k, v) ∈ normFields (persistData m.fields) ∨
      (k, v) ∈ normFields (Model.postPayload m)) :
    jsStartsWith k "__" = false ∧ k ≠ "endpoint" ∧ v.isCallable = false := by
  have hmem : (k, v) ∈ normFields (m.fields.filter
      fun p => !jsStartsWith p.1 "__" && !p.2.isCallable && p.1 ≠ "endpoint") := by
    rcases h with h | h
    · exact h
    · exact h
  obtain ⟨v₀, hm, hn⟩ := of_mem_normFields _ _ _ hmem
  have hp := (List.mem_filter.mp hm).2
  simp only [Bool.and_eq_true, Bool.not_eq_true', decide_eq_true_eq] at hp
  exact ⟨hp.1.1, hp.2, jsonNormalize_not_callable _ _ hn⟩

/-- C6 witness: a model holding a private member, an `endpoint`, a method
and two public fields — the public entry `("name", "Eve")` is in the
snapshot, and the theorem yields its exclusion properties. -/
theorem C6_snapshot_payload_exclusions_witness :
    (("name", Value.vstr "Eve") ∈ normFields (persistData
        [("name", Value.vstr "Eve"), ("endpoint", Value.vstr "/api/user"),
         ("__secret", Value.vstr "hidden"), ("getName", Value.vfn (Value.vstr "Eve")),
         ("id", Value.vnull)]) ∨
      ("name", Value.vstr "Eve") ∈ normFields (Model.postPayload
        ⟨"endpoint-test",
         [("name", Value.vstr "Eve"), ("endpoint", Value.vstr "/api/user"),
          ("__secret", Value.vstr "hidden"), ("getName", Value.vfn (Value.vstr "Eve")),
          ("id", Value.vnull)]⟩)) ∧
    (jsStartsWith "name" "__" = false ∧ "name" ≠ "endpoint" ∧
      (Value.vstr "Eve").isCallable = false) :=
  ⟨Or.inl (by decide),
    C6_snapshot_payload_exclusions
      ⟨"endpoint-test",
       [("name", Value.vstr "Eve"), ("endpoint", Value.vstr "/api/user"),
        ("__secret", Value.vstr "hidden"), ("getName", Value.vfn (Value.vstr "Eve")),
        ("id", Value.vnull)]⟩
      "name" (Value.vstr "Eve") (Or.inl (by decide))⟩

/-- C7: binding resolution — `__getPropertyValue` splits the dotted path and
walks it from the model object; a null/undefined value short-circuits every
remaining step to the empty string; a null/undefined terminal value also
resolves to the empty string; at each step a callable member is invoked and
any other member is read as a field.  `resolveSteps` is a total function, so
resolution never throws. -/
theorem C7_binding_resolution (m : Model) (path : String) :
    Model.getPropertyValue m path = resolveSteps (.vobj m.fields) (jsSplit '.' path) ∧
    (∀ parts : List String, resolveSteps .vnull parts = .vstr "" ∧
      resolveSteps .undefined parts = .vstr "") ∧
    (∀ v : Value, resolveSteps v [] = if v.isNullish then .vstr "" else v) ∧
    (∀ (fs : List (String × Value)) (k : String) (rest : List String),
      resolveSteps (.vobj fs) (k :: rest) =
        if (getProp fs k).isCallable then resolveSteps (getProp fs k).call rest
        else resolveSteps (getProp fs k) rest) := by
  refine ⟨rfl, fun parts => ⟨?_, ?_⟩, fun v => rfl, fun fs k rest => rfl⟩
  · cases parts <;> rfl
  · cases parts <;> rfl

/-- C9: isolation between instances — a write on a model never changes the
store entry under any other storage key, storage keys of distinct instance
names are distinct, and another model's restore reads the exact same
snapshot after the write as before it. -/
theorem C9_instance_isolation (mA : Model) (store : Store) (dom : DOM)
    (k : String) (v : Value) (b : String) (h : b ≠ mA.instanceName) :
    (proxySet mA store dom k v).2.1.getItem (storageKey b) =
      store.getItem (storageKey b) ∧
    (∀ x y : String, storageKey x = storageKey y → x = y) ∧
    (∀ mB : Model, mB.instanceName = b →
      Model.restore mB (proxySet mA store dom k v).2.1 = Model.restore mB store) := by
  have hkey : storageKey b ≠ storageKey mA.instanceName := by
    intro he
    exact h (storageKey_inj _ _ he)
  have h1 := proxySet_store_getItem_other mA store dom k v (storageKey b) hkey
  refine ⟨h1, storageKey_inj, fun mB hB => ?_⟩
  simp only [Model.restore, hB, h1]

/-- C9 witness: with `user1` and `user2` both persisted, a write on `user1`
leaves `user2`'s entry, and `user2`'s restore, untouched. -/
theorem C9_instance_isolation_witness :
    ("user2" ≠ "user1") ∧
    ((proxySet ⟨"user1", [("name", Value.vstr "")]⟩
        [(storageKey "user1", .good [("name", Value.vstr "")]),
         (storageKey "user2", .good [("name", Value.vstr "Bob")])] []
        "name" (Value.vstr "Alice")).2.1.getItem (storageKey "user2") =
      Store.getItem
        [(storageKey "user1", .good [("name", Value.vstr "")]),
         (storageKey "user2", .good [("name", Value.vstr "Bob")])]
        (storageKey "user2") ∧
    (∀ x y : String, storageKey x = storageKey y → x = y) ∧
    (∀ mB : Model, mB.instanceName = "user2" →
      Model.restore mB (proxySet ⟨"user1", [("name", Value.vstr "")]⟩
        [(storageKey "user1", .good [("name", Value.vstr "")]),
         (storageKey "user2", .good [("name", Value.vstr "Bob")])] []
        "name" (Value.vstr "Alice")).2.1 =
      Model.restore mB
        [(storageKey "user1", .good [("name", Value.vstr "")]),
         (storageKey "user2", .good [("name", Value.vstr "Bob")])])) :=
  ⟨by decide,
    C9_instance_isolation ⟨"user1", [("name", Value.vstr "")]⟩
      [(storageKey "user1", .good [("name", Value.vstr "")]),
       (storageKey "user2", .good [("name", Value.vstr "Bob")])] []
      "name" (Value.vstr "Alice") "user2" (by decide)⟩

/-- C1 (code bug): `index.d.ts` and the README document
`constructor(instanceName, sessionPersist)` with the flag defaulting to
`true` and a `false` flag skipping restore and every persist; the
constructor implemented in `src/index.js` declares only `instanceName`, so
the extra argument is ignored — construction with the flag `false` is
identical to construction without it, still restores the stored snapshot
(the undeclared stored key `extra` appears on the model), and a subsequent
public write on the "persistence-disabled" model still saves to the store
(with the full persist-then-render propagation). -/
theorem C1_persistence_flag_ignored :
    (∀ (declared : List (String × Value)) (name : String) (flag : Bool)
        (store : Store) (dom : DOM) (registry : List String),
      constructWithFlag declared name flag store dom registry =
        construct declared name store dom registry) ∧
    getProp (constructWithFlag [("name", Value.vstr "x")] "temp" false
        [(storageKey "temp", .good [("extra", Value.vnum 7)])] [] []).model.fields
        "extra" = Value.vnum 7 ∧
    (proxySet (constructWithFlag [("name", Value.vstr "")] "temp" false
        ([] : Store) [] []).model ([] : Store) [] "name" (Value.vstr "x")).2.1.getItem
        (storageKey "temp") = some (.good [("name", Value.vstr "x")]) ∧
    (proxySet (constructWithFlag [("name", Value.vstr "")] "temp" false
        ([] : Store) [] []).model ([] : Store) [] "name" (Value.vstr "x")).2.2.2 =
      [Action.persist, Action.render] := by
  refine ⟨fun _ _ _ _ _ _ => rfl, ?_, ?_, ?_⟩ <;> decide

/-- C2 counterexample: the snapshot is present, parseable and holds one
public field, restore applies it (the field reads back), yet no persist
occurs before construction returns: the trace is exactly the single final
render. -/
theorem C2_counterexample_no_restore_persist :
    (Store.getItem [(storageKey "u", StoredString.good [("name", Value.vstr "x")])]
        (storageKey "u")) = some (.good [("name", Value.vstr "x")]) ∧
    getProp (construct [("name", Value.vstr "x")] "u"
        [(storageKey "u", .good [("name", Value.vstr "x")])] [] []).model.fields "name" =
      Value.vstr "x" ∧
    (construct [("name", Value.vstr "x")] "u"
        [(storageKey "u", .good [("name", Value.vstr "x")])] [] []).trace =
      [Action.render] ∧
    Action.persist ∉ (construct [("name", Value.vstr "x")] "u"
        [(storageKey "u", .good [("name", Value.vstr "x")])] [] []).trace := by
  refine ⟨?_, ?_, ?_, ?_⟩ <;> decide

/-- C2 (amended): `__restore` applies each stored field as a plain write on
the raw, not-yet-proxied object, so restore is not subject to the Change
Interceptor rules and triggers no persist and no render; the subclass field
definitions that follow `super()` go through `[[DefineOwnProperty]]`, which
the set-trap-only proxy leaves untrapped, so they trigger none either.  For
every store — snapshots present or not — construction leaves the store
untouched and its trace is exactly the one final render, with no persist;
and a declared field always ends at its declared default, the definition
overwriting any restored value. -/
theorem C2_restore_bypasses_interceptor (declared : List (String × Value))
    (name : String) (store : Store) (dom : DOM) (registry : List String) :
    (construct declared name store dom registry).trace = [Action.render] ∧
    (construct declared name store dom registry).store = store ∧
    Action.persist ∉ (construct declared name store dom registry).trace ∧
    (construct declared name store dom registry).model =
      applyInits (Model.restore ⟨name, []⟩ store).1 declared ∧
    (∀ (j : String) (w : Value), (declared.map Prod.fst).Nodup → (j, w) ∈ declared →
      getProp (construct declared name store dom registry).model.fields j = w) := by
  refine ⟨rfl, rfl, ?_, rfl, fun j w hnd hmem => ?_⟩
  · show Action.persist ∉ [Action.render]
    simp
  · show getProp (applyAll (Model.restore ⟨name, []⟩ store).1.fields declared) j = w
    exact applyAll_getProp_mem declared _ j w hnd hmem

/-- C2 amended-claim witness: a declared default `name = ""` over a stored
snapshot `name = "Alice"` — construction still traces exactly one render,
leaves the store untouched, and the declared default wins over the restored
value. -/
theorem C2_restore_bypasses_interceptor_witness :
    ((([("name", Value.vstr "")].map Prod.fst).Nodup ∧
      ("name", Value.vstr "") ∈ [("name", Value.vstr "")]) ∧
    ((construct [("name", Value.vstr "")] "u"
        [(storageKey "u", .good [("name", Value.vstr "Alice")])] [] []).trace =
      [Action.render] ∧
    (construct [("name", Value.vstr "")] "u"
        [(storageKey "u", .good [("name", Value.vstr "Alice")])] [] []).store =
      [(storageKey "u", .good [("name", Value.vstr "Alice")])] ∧
    getProp (construct [("name", Value.vstr "")] "u"
        [(storageKey "u", .good [("name", Value.vstr "Alice")])] [] []).model.fields
      "name" = Value.vstr "")) :=
  ⟨⟨by decide, by decide⟩,
    (C2_restore_bypasses_interceptor [("name", Value.vstr "")] "u"
      [(storageKey "u", .good [("name", Value.vstr "Alice")])] [] []).1,
    (C2_restore_bypasses_interceptor [("name", Value.vstr "")] "u"
      [(storageKey "u", .good [("name", Value.vstr "Alice")])] [] []).2.1,
    (C2_restore_bypasses_interceptor [("name", Value.vstr "")] "u"
      [(storageKey "u", .good [("name", Value.vstr "Alice")])] [] []).2.2.2.2
      "name" (Value.vstr "") (by decide) (by decide)⟩

/-- C8 counterexample: a stored empty string under the model's key is not
parseable (`JSON.parse("")` throws), yet the `if (stored)` truthiness
guard in `__restore` skips it silently — no parse is attempted and nothing
is reported (the report flag is `false`), contradicting "restore reports
the failure locally"; the model does keep its defaults. -/
theorem C8_counterexample_empty_snapshot_silent :
    Store.getItem [(storageKey "u", StoredString.bad "")] (storageKey "u") =
      some (.bad "") ∧
    Model.restore ⟨"u", [("name", Value.vstr "x")]⟩
        [(storageKey "u", StoredString.bad "")] =
      (⟨"u", [("name", Value.vstr "x")]⟩, false) := by
  exact ⟨by decide, by decide⟩

/-- C8 (amended): an absent snapshot makes `__restore` a no-op with nothing
reported; a stored unparseable snapshot leaves the model unchanged and is
reported locally via `console.error` — except the empty string, which the
`if (stored)` truthiness guard skips silently with no report.  In every
unparseable case the constructed model is the same as if the store had been
empty and the report flag is set exactly for non-empty corrupt entries, so
a corrupt snapshot never prevents (nor alters) model construction, which,
being a total function here, never throws. -/
theorem C8_restore_error_handling (m : Model) (store : Store) :
    (store.getItem (storageKey m.instanceName) = none →
      Model.restore m store = (m, false)) ∧
    (store.getItem (storageKey m.instanceName) = some (.bad "") →
      Model.restore m store = (m, false)) ∧
    (∀ raw : String, raw ≠ "" →
      store.getItem (storageKey m.instanceName) = some (.bad raw) →
      Model.restore m store = (m, true)) ∧
    (∀ (declared : List (String × Value)) (dom : DOM) (registry : List String)
        (raw : String),
      store.getItem (storageKey m.instanceName) = some (.bad raw) →
      (construct declared m.instanceName store dom registry).model =
        (construct declared m.instanceName ([] : Store) dom registry).model ∧
      ((construct declared m.instanceName store dom registry).logged = true ↔
        raw ≠ "")) := by
  refine ⟨fun h => by simp [Model.restore, h], fun h => by simp [Model.restore, h],
    fun raw hne h => by simp [Model.restore, h, hne], ?_⟩
  intro declared dom registry raw h
  have hres : (Model.restore ⟨m.instanceName, []⟩ store).1 = ⟨m.instanceName, []⟩ := by
    simp only [Model.restore, h]
    split <;> rfl
  have hres0 : (Model.restore ⟨m.instanceName, []⟩ ([] : Store)).1 =
      ⟨m.instanceName, []⟩ := by
    simp [Model.restore, Store.getItem, List.find?]
  constructor
  · show applyInits (Model.restore ⟨m.instanceName, []⟩ store).1 declared =
      applyInits (Model.restore ⟨m.instanceName, []⟩ ([] : Store)).1 declared
    rw [hres, hres0]
  · show (Model.restore ⟨m.instanceName, []⟩ store).2 = true ↔ raw ≠ ""
    by_cases hraw : raw = ""
    · subst hraw
      simp [Model.restore, h]
    · simp [Model.restore, h, hraw]

/-- C8 amended-claim witness: with an empty store the restore is a silent
no-op; with the stored empty string it is a silent (unreported) no-op; with
the non-empty unparseable entry `"not json"` it reports and changes
nothing, and construction matches empty-store construction with the
failure logged. -/
theorem C8_restore_error_handling_witness :
    ((Store.getItem ([] : Store) (storageKey "u") = none) ∧
      Model.restore ⟨"u", [("name", Value.vstr "x")]⟩ ([] : Store) =
        (⟨"u", [("name", Value.vstr "x")]⟩, false)) ∧
    ((Store.getItem [(storageKey "u", StoredString.bad "")] (storageKey "u") =
        some (.bad "")) ∧
      Model.restore ⟨"u", [("name", Value.vstr "x")]⟩
          [(storageKey "u", StoredString.bad "")] =
        (⟨"u", [("name", Value.vstr "x")]⟩, false)) ∧
    (("not json" ≠ "") ∧
      (Store.getItem [(storageKey "u", StoredString.bad "not json")] (storageKey "u") =
        some (.bad "not json")) ∧
      Model.restore ⟨"u", [("name", Value.vstr "x")]⟩
          [(storageKey "u", StoredString.bad "not json")] =
        (⟨"u", [("name", Value.vstr "x")]⟩, true) ∧
      (construct [("name", Value.vstr "x")] "u"
          [(storageKey "u", StoredString.bad "not json")] [] []).model =
        (construct [("name", Value.vstr "x")] "u" ([] : Store) [] []).model ∧
      ((construct [("name", Value.vstr "x")] "u"
          [(storageKey "u", StoredString.bad "not json")] [] []).logged = true ↔
        "not json" ≠ "")) :=
  ⟨⟨by decide,
      (C8_restore_error_handling ⟨"u", [("name", Value.vstr "x")]⟩ ([] : Store)).1
        (by decide)⟩,
    ⟨by decide,
      (C8_restore_error_handling ⟨"u", [("name", Value.vstr "x")]⟩
        [(storageKey "u", StoredString.bad "")]).2.1 (by decide)⟩,
    ⟨by decide, by decide,
      (C8_restore_error_handling ⟨"u", [("name", Value.vstr "x")]⟩
        [(storageKey "u", StoredString.bad "not json")]).2.2.1 "not json"
        (by decide) (by decide),
      ((C8_restore_error_handling ⟨"u", [("name", Value.vstr "x")]⟩
        [(storageKey "u", StoredString.bad "not json")]).2.2.2
        [("name", Value.vstr "x")] [] [] "not json" (by decide)).1,
      ((C8_restore_error_handling ⟨"u", [("name", Value.vstr "x")]⟩
        [(storageKey "u", StoredString.bad "not json")]).2.2.2
        [("name", Value.vstr "x")] [] [] "not json" (by decide)).2⟩⟩

theorem resolveSteps_single (fs : List (String × Value)) (k : String) (v : Value)
    (hg : getProp fs k = v) (hv2 : v.isCallable = false) (hv3 : v.isNullish = false) :
    resolveSteps (.vobj fs) [k] = v := by
  cases v with
  | undefined => simp [Value.isNullish] at hv3
  | vnull => simp [Value.isNullish] at hv3
  | vfn r => simp [Value.isCallable] at hv2
  | vbool b =>
    simp [resolveSteps, Value.getMember, hg, Value.isNullish, Value.isCallable]
  | vnum n =>
    simp [resolveSteps, Value.getMember, hg, Value.isNullish, Value.isCallable]
  | vstr s =>
    simp [resolveSteps, Value.getMember, hg, Value.isNullish, Value.isCallable]
  | vobj gs =>
    simp [resolveSteps, Value.getMember, hg, Value.isNullish, Value.isCallable]

/-- C10 (implicit): `__restore` applies every snapshot key without
filtering, so a public key the class never declared is created on the model
by restore, survives the field initializers, is included in the next
persisted snapshot, and resolves through a binding — while the population
loop of `get()` (and of `post()`'s response handling) writes only keys the
model already owns, so it can never create such a field. -/
theorem C10_restore_unfiltered_vs_get_filtered (declared : List (String × Value))
    (name : String) (snap : List (String × Value)) (k : String) (v : Value)
    (store : Store) (dom : DOM) (registry : List String)
    (hstore : store.getItem (storageKey name) = some (.good snap))
    (hnodup : (snap.map Prod.fst).Nodup) (hmem : (k, v) ∈ snap)
    (hdecl : k ∉ declared.map Prod.fst)
    (hk1 : jsStartsWith k "__" = false) (hk2 : k ≠ "endpoint")
    (hv1 : v.isJsonValue = true) (hv2 : v.isCallable = false)
    (hv3 : v.isNullish = false) (hsplit : jsSplit '.' k = [k]) :
    getProp (construct declared name store dom registry).model.fields k = v ∧
    (k, v) ∈ normFields (persistData
      (construct declared name store dom registry).model.fields) ∧
    Model.getPropertyValue (construct declared name store dom registry).model k = v ∧
    (∀ (m₀ : Model) (s : Store) (d : DOM) (data : List (String × Value)),
      hasOwn m₀.fields k = false →
      hasOwn (populateResponse m₀ s d data).1.fields k = false) := by
  have hm1 : (Model.restore ⟨name, []⟩ store).1 = ⟨name, applyAll [] snap⟩ := by
    simp [Model.restore, hstore]
  have hg : getProp (construct declared name store dom registry).model.fields k = v := by
    show getProp (applyAll (Model.restore ⟨name, []⟩ store).1.fields declared) k = v
    rw [applyAll_getProp_not_mem declared _ _ hdecl, hm1]
    exact applyAll_getProp_mem snap [] k v hnodup hmem
  have hvne : v ≠ .undefined := by
    intro he; subst he; simp [Value.isNullish] at hv3
  refine ⟨hg, ?_, ?_, fun m₀ s d data hh => populateResponse_hasOwn_false data m₀ s d k hh⟩
  · refine mem_normFields_of_mem _ _ _ _ ?_ (jsonNormalize_of_isJsonValue v hv1)
    refine List.mem_filter.mpr ⟨mem_of_getProp _ _ _ hg hvne, ?_⟩
    simp [hk1, hk2, hv2]
  · show resolveSteps (.vobj (construct declared name store dom registry).model.fields)
      (jsSplit '.' k) = v
    rw [hsplit]
    exact resolveSteps_single _ _ _ hg hv2 hv3

/-- C10 witness: the stored snapshot holds the undeclared key `extra`;
after construction the model carries `extra = 7`, the next snapshot includes
it and the binding `"extra"` resolves to it, while the `get()` population
loop on a fresh model leaves `extra` absent. -/
theorem C10_restore_unfiltered_vs_get_filtered_witness :
    ((Store.getItem [(storageKey "u", StoredString.good [("extra", Value.vnum 7)])]
        (storageKey "u") = some (.good [("extra", Value.vnum 7)])) ∧
      ([("extra", Value.vnum 7)].map Prod.fst).Nodup ∧
      ("extra", Value.vnum 7) ∈ [("extra", Value.vnum 7)] ∧
      "extra" ∉ [("name", Value.vstr "")].map Prod.fst ∧
      jsStartsWith "extra" "__" = false ∧ "extra" ≠ "endpoint" ∧
      (Value.vnum 7).isJsonValue = true ∧ (Value.vnum 7).isCallable = false ∧
      (Value.vnum 7).isNullish = false ∧ jsSplit '.' "extra" = ["extra"]) ∧
    (getProp (construct [("name", Value.vstr "")] "u"
        [(storageKey "u", .good [("extra", Value.vnum 7)])] [] []).model.fields "extra" =
      Value.vnum 7 ∧
    ("extra", Value.vnum 7) ∈ normFields (persistData
      (construct [("name", Value.vstr "")] "u"
        [(storageKey "u", .good [("extra", Value.vnum 7)])] [] []).model.fields) ∧
    Model.getPropertyValue (construct [("name", Value.vstr "")] "u"
        [(storageKey "u", .good [("extra", Value.vnum 7)])] [] []).model "extra" =
      Value.vnum 7 ∧
    hasOwn (populateResponse ⟨"u", [("name", Value.vstr "")]⟩ ([] : Store) []
        [("extra", Value.vnum 7)]).1.fields "extra" = false) :=
  ⟨⟨by decide, by decide, by decide, by decide, by decide, by decide, by decide,
      by decide, by decide, by decide⟩,
    (C10_restore_unfiltered_vs_get_filtered [("name", Value.vstr "")] "u"
      [("extra", Value.vnum 7)] "extra" (Value.vnum 7)
      [(storageKey "u", .good [("extra", Value.vnum 7)])] [] []
      (by decide) (by decide) (by decide) (by decide) (by decide) (by decide)
      (by decide) (by decide) (by decide) (by decide)).1,
    (C10_restore_unfiltered_vs_get_filtered [("name", Value.vstr "")] "u"
      [("extra", Value.vnum 7)] "extra" (Value.vnum 7)
      [(storageKey "u", .good [("extra", Value.vnum 7)])] [] []
      (by decide) (by decide) (by decide) (by decide) (by decide) (by decide)
      (by decide) (by decide) (by decide) (by decide)).2.1,
    (C10_restore_unfiltered_vs_get_filtered [("name", Value.vstr "")] "u"
      [("extra", Value.vnum 7)] "extra" (Value.vnum 7)
      [(storageKey "u", .good [("extra", Value.vnum 7)])] [] []
      (by decide) (by decide) (by decide) (by decide) (by decide) (by decide)
      (by decide) (by decide) (by decide) (by decide)).2.2.1,
    (C10_restore_unfiltered_vs_get_filtered [("name", Value.vstr "")] "u"
      [("extra", Value.vnum 7)] "extra" (Value.vnum 7)
      [(storageKey "u", .good [("extra", Value.vnum 7)])] [] []
      (by decide) (by decide) (by decide) (by decide) (by decide) (by decide)
      (by decide) (by decide) (by decide) (by decide)).2.2.2
      ⟨"u", [("name", Value.vstr "")]⟩ ([] : Store) [] [("extra", Value.vnum 7)]
      (by decide)⟩

end SSL
